import Mathlib

/-!
Formal model of the sporc corpus query engine.

This file gives a shallow embedding, in Lean, of the parts of the
`sporc` code base that the verified properties talk about:

  * the sliding-window iterator over conversation turns
    (`sporc/episode.py`, `Episode.sliding_window` and `TurnWindow`);
  * the turn loader (`sporc/parquet_backend.py`,
    `ParquetBackend._load_turns_into_episode`);
  * the key-word-in-context extraction (`ParquetBackend.concordance`);
  * the audio-offset estimator (`ParquetBackend.estimate_word_audio`);
  * the phase-2 metrics builder (`scripts/build_indexes.py`);
  * the ingest id scheme (`scripts/convert_to_parquet.py`), together
    with a full executable MD5;
  * the value-coercion helpers (`safe_str`, `safe_float`, `safe_int`,
    `safe_list` from `scripts/convert_to_parquet.py`, plus the dict and
    bool coercers);
  * the in-memory id lookups (`ParquetBackend.get_episode_by_id`,
    `ParquetBackend.get_podcast_by_id`).

Machine floats of the original code are modelled as exact rationals, and
Python machine-independent ints as `Int`/`Nat`.  Each definition mirrors
one Python function; the mirrored file and function are named next to the
definition.
-/

/- The rational arithmetic of the standard library is marked
irreducible, which blocks `decide` on concrete rational computations;
restore the default reducibility for it. -/
attribute [local semireducible] Rat.add Rat.sub Rat.mul Rat.inv

/-! ## Python string primitives

The Python code relies on `str.split()`, `str.strip()`, `str.lower()`,
`str.find` and substring containment.  These are modelled on `List Char`
/ `String`.  `Char.toLower`/`Char.isWhitespace` agree with Python on the
ASCII texts handled here.
-/

/-- Lowercase every character, as Python `str.lower()` (ASCII-faithful). -/
def lowerStr (s : String) : String :=
  String.mk (s.toList.map Char.toLower)

/-- Accumulator loop of `pySplit`; `cur` holds the reversed current
word. -/
def pySplitAux : List Char → List Char → List (List Char)
  | [], cur => if cur.isEmpty then [] else [cur.reverse]
  | c :: cs, cur =>
    if c.isWhitespace then
      if cur.isEmpty then pySplitAux cs [] else cur.reverse :: pySplitAux cs []
    else pySplitAux cs (c :: cur)

/-- Whitespace-splitting of Python `str.split()` (no argument): maximal
runs of non-whitespace characters, empty pieces dropped. -/
def pySplit (cs : List Char) : List (List Char) :=
  pySplitAux cs []

/-- Python `text.split()` on a `String`, returning `String` words. -/
def pySplitWords (s : String) : List String :=
  (pySplit s.toList).map (fun l => String.mk l)

/-- Python `str.strip()`: drop leading and trailing whitespace. -/
def pyStrip (s : String) : String :=
  String.mk (((s.toList.dropWhile Char.isWhitespace).reverse.dropWhile
    Char.isWhitespace).reverse)

/-- Does `hay` start with `needle`? (Python slice-equality test.) -/
def listStartsWith : List Char → List Char → Bool
  | [], _ => true
  | _ :: _, [] => false
  | a :: as, b :: bs => a == b && listStartsWith as bs

/-- Index of the first occurrence of `needle` in `hay`, as Python
`str.find` (with `-1` rendered as `none`).  The empty needle matches at
index 0. -/
def findSubstr (needle hay : List Char) : Option ℕ :=
  (List.range (hay.length + 1)).find? (fun i => listStartsWith needle (hay.drop i))

/-- All match positions of `needle` in `hay`, in increasing order.  This
is what a Python `str.find` loop advancing by one position past each hit
enumerates (overlapping occurrences included). -/
def matchPositions (needle hay : List Char) : List ℕ :=
  (List.range (hay.length + 1)).filter (fun i => listStartsWith needle (hay.drop i))

/-! ## Domain model: turns and turn windows

Mirrors `sporc/turn.py` (whose attributes are fixed by the spec §3/§4.8
and `tests/test_turn_unit.py`) and `sporc/episode.py` (`TurnWindow`).
-/

/-- A conversation turn (`sporc/turn.py`). -/
structure Turn where
  speaker : List String
  text : String
  start_time : ℚ
  end_time : ℚ
  duration : ℚ
  turn_count : ℤ
  inferred_speaker_role : Option String
  inferred_speaker_name : Option String
  mp3_url : Option String
deriving Repr, DecidableEq, Inhabited

/-- A window of turns (`sporc/episode.py`, class `TurnWindow`). -/
structure TurnWindow where
  turns : List Turn
  window_index : ℕ
  start_index : ℕ
  end_index : ℕ
  total_windows : ℕ
  overlap_size : ℕ
deriving Repr, DecidableEq, Inhabited

/-- `TurnWindow.is_first`. -/
def TurnWindow.is_first (w : TurnWindow) : Bool :=
  w.window_index == 0

/-- `TurnWindow.overlap_turns`: the turns shared with the previous
window. -/
def TurnWindow.overlap_turns (w : TurnWindow) : List Turn :=
  if w.overlap_size > 0 && !w.is_first then w.turns.take w.overlap_size else []

/-- `TurnWindow.new_turns`: the turns first contributed by this window. -/
def TurnWindow.new_turns (w : TurnWindow) : List Turn :=
  if w.overlap_size > 0 && !w.is_first then w.turns.drop w.overlap_size else w.turns

/-! ## Sliding windows (`Episode.sliding_window`)

`sporc/episode.py` lines 500-574.  The Python generator first validates
its arguments (raising `ValueError`, modelled as `Except.error` with the
same message) and then yields `total_windows` windows.  Parameters are
`Int` exactly as in Python; after validation they are non-negative and
the core iteration runs on `Nat`.
-/

/-- The window-generation loop of `Episode.sliding_window` (lines
542-574), after validation has established `overlap < window_size`,
`start_index < end_index ≤ turns.length`.  `turns[a:b]` for in-range
indices is `(turns.drop a).take (b - a)`; `//` on the non-negative
operands is `Nat` division. -/
def slidingWindowCore (turns : List Turn) (window_size overlap start_index end_index : ℕ) :
    List TurnWindow :=
  let step_size := window_size - overlap
  let total_turns := end_index - start_index
  if total_turns = 0 then []
  else
    let total_windows :=
      if total_turns ≤ window_size then 1
      else (total_turns - window_size) / step_size + 1
    (List.range total_windows).map (fun window_index =>
      let window_start := start_index + window_index * step_size
      let window_end := min (window_start + window_size) end_index
      { turns := (turns.drop window_start).take (window_end - window_start)
        window_index := window_index
        start_index := window_start
        end_index := window_end
        total_windows := total_windows
        overlap_size := if window_index > 0 then overlap else 0 })

/-- `Episode.sliding_window` (validation plus generation; lines
500-574).  `none` for `start_index?`/`end_index?` selects the Python
defaults (0 and `len(self._turns)`). -/
def sliding_window (turns : List Turn) (window_size overlap : ℤ)
    (start_index? end_index? : Option ℤ) : Except String (List TurnWindow) :=
  if window_size ≤ overlap then
    Except.error "Window size must be greater than overlap"
  else if window_size ≤ 0 then
    Except.error "Window size must be positive"
  else if overlap < 0 then
    Except.error "Overlap must be non-negative"
  else
    let start_index := start_index?.getD 0
    let end_index := end_index?.getD (turns.length : ℤ)
    if start_index < 0 ∨ (turns.length : ℤ) ≤ start_index then
      Except.error ("Start index " ++ toString start_index ++ " is out of range")
    else if (turns.length : ℤ) < end_index ∨ end_index ≤ start_index then
      Except.error ("End index " ++ toString end_index ++ " is invalid")
    else
      Except.ok (slidingWindowCore turns window_size.toNat overlap.toNat
        start_index.toNat end_index.toNat)

/-- A synthetic turn used for concrete instances (mirrors the fixtures of
`tests/test_sliding_window.py`: turn `i` spans `[2i, 2i+2]`). -/
def demoTurn (i : ℕ) : Turn :=
  { speaker := ["SPEAKER_00"]
    text := "Turn"
    start_time := (2 * i : ℕ)
    end_time := (2 * i + 2 : ℕ)
    duration := 2
    turn_count := (i : ℤ)
    inferred_speaker_role := some "host"
    inferred_speaker_name := some "Host"
    mp3_url := some "test.mp3" }

/-- The first `n` synthetic turns. -/
def demoTurns (n : ℕ) : List Turn :=
  (List.range n).map demoTurn

/-! ## The turn loader

`sporc/parquet_backend.py`, `ParquetBackend._load_turns_into_episode`
(lines 714-775).  A raw row is what `get_turns_for_episode` hands the
loader: the columns of `turns/podcast_id=.../text.parquet` joined with
the audio features (the audio columns play no role in the modelled
checks and are omitted from the row).
-/

/-- One row of a turn partition file as seen by the loader.  `speaker`
is already in list form (the loader wraps a bare string into a
one-element list before the emptiness check). -/
structure RawTurnRow where
  speaker : List String
  turn_text : String
  start_time : ℚ
  end_time : ℚ
  duration : ℚ
  turn_count : ℤ
  inferred_speaker_role : String
  inferred_speaker_name : String
  mp3_url : String
deriving Repr, DecidableEq, Inhabited

/-- Python `str(x) or None`: an empty string becomes `None`. -/
def strOrNone (s : String) : Option String :=
  if s.isEmpty then none else some s

/-- Modelled from the spec: the `Turn` constructor of `sporc/turn.py` is
not part of the source tree (only its unit tests and its callers are).
Its validation is reconstructed from spec §3 and §4.7-4.8 and from
`tests/test_turn_unit.py`: `ValueError` (here `Except.error`) for a
negative start time, an end time before the start time, a negative
duration, an empty speaker list, or empty/whitespace-only text; no
other check.  In particular the constructor never sees the episode
duration. -/
def mkTurn (speaker : List String) (text : String)
    (start_time end_time duration : ℚ) (turn_count : ℤ)
    (role name mp3 : Option String) : Except String Turn :=
  if start_time < 0 then Except.error "Start time cannot be negative"
  else if end_time < start_time then Except.error "End time cannot be before start time"
  else if duration < 0 then Except.error "Duration cannot be negative"
  else if speaker.isEmpty then Except.error "Speaker list cannot be empty"
  else if (pyStrip text).isEmpty then Except.error "Text cannot be empty"
  else Except.ok
    { speaker := speaker
      text := text
      start_time := start_time
      end_time := end_time
      duration := duration
      turn_count := turn_count
      inferred_speaker_role := role
      inferred_speaker_name := name
      mp3_url := mp3 }

/-- `ParquetBackend._load_turns_into_episode` (lines 725-775): skip rows
with an empty speaker list, empty (stripped) text, or
`end_time <= start_time`; construct a `Turn` and skip the row if the
constructor raises; finally sort by `start_time` (Python `list.sort` is
stable, as is the insertion sort used here). -/
def load_turns_into_episode (rows : List RawTurnRow) : List Turn :=
  (rows.filterMap (fun row =>
    if row.speaker.isEmpty then none
    else
      let text := pyStrip row.turn_text
      if text.isEmpty then none
      else if row.end_time ≤ row.start_time then none
      else
        match mkTurn row.speaker text row.start_time row.end_time row.duration
          row.turn_count (strOrNone row.inferred_speaker_role)
          (strOrNone row.inferred_speaker_name) (strOrNone row.mp3_url) with
        | Except.ok t => some t
        | Except.error _ => none)).insertionSort
    (fun a b => a.start_time ≤ b.start_time)

/-! ## Key-word-in-context extraction

`sporc/parquet_backend.py`, `ParquetBackend.concordance` (lines
1039-1131).  The SQL pre-filter only shrinks the candidate set; the KWIC
record built for one turn text (lines 1092-1129) is modelled here.  The
compiled pattern is `re.escape(word)` with `IGNORECASE`, i.e. a literal
case-insensitive search, whose leftmost match is the first occurrence of
the lowercased word in the lowercased text.
-/

/-- The three text fields of one concordance result row. -/
structure KwicEntry where
  left_context : String
  keyword : String
  right_context : String
deriving Repr, DecidableEq, Inhabited

/-- The slicing step of `concordance` (lines 1110-1115), given the
computed starting word index. -/
def kwicEntryAt (word : String) (context_words : ℕ) (text : String)
    (word_idx : ℕ) : KwicEntry :=
  let words := pySplitWords text
  let kw_word_count := (pySplitWords word).length
  let left_start := word_idx - context_words
  let right_end := min words.length (word_idx + kw_word_count + context_words)
  { left_context := " ".intercalate ((words.drop left_start).take (word_idx - left_start))
    keyword := " ".intercalate ((words.drop word_idx).take kw_word_count)
    right_context := " ".intercalate
      ((words.drop (word_idx + kw_word_count)).take (right_end - (word_idx + kw_word_count))) }

/-- The KWIC record `concordance` builds for one turn text (lines
1092-1129): locate the first case-insensitive match; if none, drop the
row; count the words of the prefix before the match, subtract one and
clamp at zero (Python `len(text[:char_pos].split()) - 1` followed by the
`if word_idx < 0` clamp equals truncated subtraction on `Nat`); then
slice the word list. -/
def kwicOfTurnText (word : String) (context_words : ℕ) (text : String) :
    Option KwicEntry :=
  match findSubstr (lowerStr word).toList (lowerStr text).toList with
  | none => none
  | some char_pos =>
    let word_idx := (pySplit (text.toList.take char_pos)).length - 1
    some (kwicEntryAt word context_words text word_idx)

/-! ## Audio-offset estimation

`sporc/parquet_backend.py`, `ParquetBackend.estimate_word_audio` (lines
1260-1333).  Python `round(x, nd)` on the exact value is
round-half-to-even; the model computes in exact rationals (the concrete
values proved about are not ties, so float double rounding plays no
role).
-/

/-- Floor of a rational, written on the numerator and denominator so
that it evaluates by kernel reduction (`ratFloor_eq_floor` below
identifies it with the mathematical floor). -/
def ratFloor (q : ℚ) : ℤ :=
  q.num.fdiv q.den

/-- Round-half-to-even to an integer. -/
def roundHalfEven (x : ℚ) : ℤ :=
  let f := ratFloor x
  let r := x - f
  if r < 1/2 then f
  else if 1/2 < r then f + 1
  else if f % 2 = 0 then f else f + 1

/-- Python `round(x, d)` for non-negative `d`, on the exact value. -/
def pyRound (x : ℚ) (d : ℕ) : ℚ :=
  (roundHalfEven (x * 10 ^ d) : ℚ) / 10 ^ d

/-- One result record of `estimate_word_audio`. -/
structure AudioEstimate where
  mp3_url : String
  estimated_start : ℚ
  estimated_end : ℚ
  turn_start : ℚ
  turn_end : ℚ
  turn_text : String
  confidence : ℚ
deriving Repr, DecidableEq, Inhabited

/-- The scan of `estimate_word_audio` (lines 1290-1333).  Within a turn
the `str.find` loop (advancing one character past each hit) enumerates
`matchPositions`; the running counter reaching `occurrence` inside a
turn means `occurrence` minus the hits of the earlier turns indexes into
that list.  On the selected hit: return `none` for a non-positive
duration or empty text, otherwise the interpolated record. -/
def estimateWordAudioGo (word_lower : List Char) (word_len : ℕ) :
    List RawTurnRow → ℕ → Option AudioEstimate
  | [], _ => none
  | turn :: rest, occ =>
    let text := turn.turn_text
    let ps := matchPositions word_lower (lowerStr text).toList
    if occ < ps.length then
      let idx := ps.getD occ 0
      let turn_start := turn.start_time
      let turn_end := turn.end_time
      let turn_duration := turn_end - turn_start
      if turn_duration ≤ 0 ∨ text.length = 0 then none
      else
        let char_frac_start := (idx : ℚ) / (text.length : ℚ)
        let char_frac_end := ((idx + word_len : ℕ) : ℚ) / (text.length : ℚ)
        some
          { mp3_url := turn.mp3_url
            estimated_start := pyRound (turn_start + char_frac_start * turn_duration) 2
            estimated_end := pyRound (turn_start + char_frac_end * turn_duration) 2
            turn_start := turn_start
            turn_end := turn_end
            turn_text := text
            confidence := pyRound (min 1 (10 / max turn_duration 1)) 3 }
    else estimateWordAudioGo word_lower word_len rest (occ - ps.length)

/-- `ParquetBackend.estimate_word_audio` on the turn rows of an episode
(the `get_turns_for_episode` read, which returns `[]` for a missing
partition, is abstracted into the `turns` argument; an empty list
returns `none` exactly as the early `if not turns` exit). -/
def estimate_word_audio (turns : List RawTurnRow) (word : String)
    (occurrence : ℕ) : Option AudioEstimate :=
  estimateWordAudioGo (lowerStr word).toList word.length turns occurrence

/-- The total number of case-insensitive (overlapping) occurrences of
`word` across the turn texts, i.e. the number of hits the `str.find`
scan of `estimate_word_audio` counts. -/
def totalOccurrences (turns : List RawTurnRow) (word : String) : ℕ :=
  (turns.map (fun t =>
    (matchPositions (lowerStr word).toList (lowerStr t.turn_text).toList).length)).sum

/-! ## Phase-2 metrics builder

`scripts/build_indexes.py`, `build_episode_and_turn_metrics` (lines
142-432).  Only the `unique_speaker_count` aggregate is modelled: the
builder reads the columns `episode_id, turn_text, start_time, end_time,
duration, turn_count, inferred_speaker_role` of a partition (lines
181-187) — not the `speaker` column — and accumulates
`speakers_seen.add(tc)` (line 256), a set of `turn_count` values, whose
cardinality is written as `unique_speaker_count` (lines 319, 326).
-/

/-- One row of `turns/podcast_id=.../text.parquet` as written by the
ingest (`convert_to_parquet.py` lines 447-459).  The file carries a
`speaker` column; the phase-2 builder does not read it. -/
structure MetricTurnRow where
  episode_id : String
  speaker : List String
  turn_text : String
  start_time : ℚ
  end_time : ℚ
  duration : ℚ
  turn_count : ℤ
  inferred_speaker_role : String
deriving Repr, DecidableEq, Inhabited

/-- The `unique_speaker_count` the phase-2 builder computes for the rows
of one episode: the number of distinct `turn_count` values (the Python
set `speakers_seen` accumulates `tc`; its final cardinality does not
depend on the start-time sort of the rows). -/
def uniqueSpeakerCountComputed (rows : List MetricTurnRow) : ℕ :=
  ((rows.map (fun r => r.turn_count)).dedup).length

/-- The number of distinct speakers appearing among the rows of one
episode (the quantity named by the spec: distinct entries of the
`speaker` column). -/
def distinctSpeakerCount (rows : List MetricTurnRow) : ℕ :=
  ((rows.flatMap (fun r => r.speaker)).dedup).length

/-! ## JSON values and the value-coercion layer

`scripts/convert_to_parquet.py` lines 71-115 (`safe_str`, `safe_float`,
`safe_int`, `safe_list`), plus the dict and bool coercers of the spec
§4.1 (`_safe_dict` / `_safe_boolean`, whose module is not in the source
tree).  Values parsed from the JSON input streams are modelled by
`JsonVal`; Python floats as exact rationals (so the float specials
`inf`/`nan` and precision loss are outside the model), Python ints as
`Int`.
-/

/-- A parsed JSON value (`json.loads` output), distinguishing ints from
floats as Python does. -/
inductive JsonVal where
  | null
  | bool (v : Bool)
  | int (n : ℤ)
  | float (q : ℚ)
  | str (s : String)
  | arr (elems : List JsonVal)
  | obj (fields : List (String × JsonVal))
deriving Inhabited

/-- JSON insignificant whitespace. -/
def skipWs (cs : List Char) : List Char :=
  cs.dropWhile (fun c => c == ' ' || c == '\t' || c == '\n' || c == '\r')

/-- Hexadecimal digit value. -/
def hexVal (c : Char) : Option ℕ :=
  if '0' ≤ c ∧ c ≤ '9' then some (c.toNat - 48)
  else if 'a' ≤ c ∧ c ≤ 'f' then some (c.toNat - 87)
  else if 'A' ≤ c ∧ c ≤ 'F' then some (c.toNat - 55)
  else none

/-- JSON single-character escapes. -/
def unescapeChar (c : Char) : Option Char :=
  if c = '"' then some '"'
  else if c = '\\' then some '\\'
  else if c = '/' then some '/'
  else if c = 'n' then some '\n'
  else if c = 't' then some '\t'
  else if c = 'r' then some '\r'
  else if c = 'b' then some (Char.ofNat 8)
  else if c = 'f' then some (Char.ofNat 12)
  else none

/-- Body of a JSON string literal, after the opening quote (surrogate
pairs are not recombined; they do not occur in the corpus inputs). -/
def parseJsonStringBody : List Char → List Char → Option (String × List Char)
  | _, [] => none
  | acc, c :: rest =>
    if c = '"' then some (String.mk acc.reverse, rest)
    else if c = '\\' then
      match rest with
      | [] => none
      | e :: rest2 =>
        if e = 'u' then
          match rest2 with
          | h1 :: h2 :: h3 :: h4 :: rest3 =>
            match hexVal h1, hexVal h2, hexVal h3, hexVal h4 with
            | some a, some b, some c2, some d =>
              parseJsonStringBody (Char.ofNat (4096 * a + 256 * b + 16 * c2 + d) :: acc) rest3
            | _, _, _, _ => none
          | _ => none
        else
          match unescapeChar e with
          | some ch => parseJsonStringBody (ch :: acc) rest2
          | none => none
    else parseJsonStringBody (c :: acc) rest
termination_by _ cs => cs.length
decreasing_by all_goals (simp only [List.length_cons]; omega)

/-- Decimal digits to a natural number. -/
def digitsToNat (ds : List Char) : ℕ :=
  ds.foldl (fun a c => 10 * a + (c.toNat - 48)) 0

/-- Exponent part of a JSON number, positioned after the `e`/`E`. -/
def parseExpPart (cs : List Char) : Option (ℤ × List Char) :=
  let (eneg, cs1) :=
    match cs with
    | c :: r => if c = '+' then (false, r) else if c = '-' then (true, r) else (false, cs)
    | [] => (false, cs)
  let ds := cs1.takeWhile Char.isDigit
  if ds.isEmpty then none
  else some ((if eneg then -(digitsToNat ds : ℤ) else (digitsToNat ds : ℤ)),
    cs1.dropWhile Char.isDigit)

/-- A JSON number (strict grammar: no leading zeros, a fraction or
exponent needs at least one digit); an integer literal yields `int`,
otherwise `float`, as Python `json.loads` does. -/
def parseJsonNumber (cs : List Char) : Option (JsonVal × List Char) :=
  let (neg, cs1) :=
    match cs with
    | c :: r => if c = '-' then (true, r) else (false, cs)
    | [] => (false, cs)
  let intDigits := cs1.takeWhile Char.isDigit
  let cs2 := cs1.dropWhile Char.isDigit
  if intDigits.isEmpty then none
  else if 2 ≤ intDigits.length ∧ intDigits.headD 'x' = '0' then none
  else
    let ipart : ℕ := digitsToNat intDigits
    let fracRes : Option (List Char × List Char) :=
      match cs2 with
      | c :: r =>
        if c = '.' then
          let ds := r.takeWhile Char.isDigit
          if ds.isEmpty then none else some (ds, r.dropWhile Char.isDigit)
        else some ([], cs2)
      | [] => some ([], cs2)
    match fracRes with
    | none => none
    | some (fracDigits, cs3) =>
      let expRes : Option (Option ℤ × List Char) :=
        match cs3 with
        | c :: r =>
          if c = 'e' ∨ c = 'E' then
            match parseExpPart r with
            | none => none
            | some (e, rest) => some (some e, rest)
          else some (none, cs3)
        | [] => some (none, cs3)
      match expRes with
      | none => none
      | some (exp?, cs4) =>
        if fracDigits.isEmpty ∧ exp? = none then
          some (JsonVal.int (if neg then -(ipart : ℤ) else (ipart : ℤ)), cs4)
        else
          let base : ℚ := (ipart : ℚ) + (digitsToNat fracDigits : ℚ) / 10 ^ fracDigits.length
          let signed : ℚ := if neg then -base else base
          some (JsonVal.float (signed * 10 ^ (exp?.getD 0)), cs4)

mutual

/-- A JSON value with leading whitespace (fuel-indexed; `parseJsonDoc`
supplies enough fuel for any input). -/
def parseJsonValue : ℕ → List Char → Option (JsonVal × List Char)
  | 0, _ => none
  | fuel + 1, cs =>
    match skipWs cs with
    | [] => none
    | c :: rest =>
      if c = 'n' then
        if rest.take 3 = ['u', 'l', 'l'] then some (JsonVal.null, rest.drop 3) else none
      else if c = 't' then
        if rest.take 3 = ['r', 'u', 'e'] then some (JsonVal.bool true, rest.drop 3) else none
      else if c = 'f' then
        if rest.take 4 = ['a', 'l', 's', 'e'] then some (JsonVal.bool false, rest.drop 4)
        else none
      else if c = '"' then
        match parseJsonStringBody [] rest with
        | some (s, rest2) => some (JsonVal.str s, rest2)
        | none => none
      else if c = '[' then
        match skipWs rest with
        | ']' :: rest2 => some (JsonVal.arr [], rest2)
        | _ =>
          match parseJsonElems fuel (skipWs rest) [] with
          | some (l, rest2) => some (JsonVal.arr l, rest2)
          | none => none
      else if c = Char.ofNat 123 then
        match skipWs rest with
        | c2 :: _ =>
          if c2 = Char.ofNat 125 then some (JsonVal.obj [], (skipWs rest).drop 1)
          else
            match parseJsonFields fuel (skipWs rest) [] with
            | some (l, rest2) => some (JsonVal.obj l, rest2)
            | none => none
        | [] => none
      else parseJsonNumber (c :: rest)

/-- Comma-separated array elements up to the closing bracket. -/
def parseJsonElems : ℕ → List Char → List JsonVal → Option (List JsonVal × List Char)
  | 0, _, _ => none
  | fuel + 1, cs, acc =>
    match parseJsonValue fuel cs with
    | none => none
    | some (v, rest) =>
      match skipWs rest with
      | c :: rest2 =>
        if c = ',' then parseJsonElems fuel rest2 (v :: acc)
        else if c = ']' then some ((v :: acc).reverse, rest2)
        else none
      | [] => none

/-- Comma-separated object members up to the closing brace. -/
def parseJsonFields : ℕ → List Char → List (String × JsonVal) →
    Option (List (String × JsonVal) × List Char)
  | 0, _, _ => none
  | fuel + 1, cs, acc =>
    match skipWs cs with
    | c :: rest =>
      if c = '"' then
        match parseJsonStringBody [] rest with
        | some (key, rest2) =>
          match skipWs rest2 with
          | c2 :: rest3 =>
            if c2 = ':' then
              match parseJsonValue fuel rest3 with
              | some (v, rest4) =>
                match skipWs rest4 with
                | c3 :: rest5 =>
                  if c3 = ',' then parseJsonFields fuel rest5 (acc ++ [(key, v)])
                  else if c3 = Char.ofNat 125 then some (acc ++ [(key, v)], rest5)
                  else none
                | [] => none
              | none => none
            else none
          | [] => none
        | none => none
      else none
    | [] => none

end

/-- Python `json.loads`: a complete document with nothing but
whitespace after the value. -/
def parseJsonDoc (s : String) : Option JsonVal :=
  match parseJsonValue (s.length + 1) s.toList with
  | some (v, rest) => if (skipWs rest).isEmpty then some v else none
  | none => none

/-- Python truthiness of a JSON value. -/
def pyTruthy : JsonVal → Bool
  | JsonVal.null => false
  | JsonVal.bool v => v
  | JsonVal.int n => decide (n ≠ 0)
  | JsonVal.float q => decide (q ≠ 0)
  | JsonVal.str s => !s.isEmpty
  | JsonVal.arr l => !l.isEmpty
  | JsonVal.obj l => !l.isEmpty

/-- Python `str()` of a JSON value.  Exact on the strings, ints, bools
and `None` that the pipeline feeds it; the rendering of floats and
containers is schematic (floats print rationally, containers are
abbreviated), which no modelled property depends on: the coercers only
test truthiness of, strip, or pass through these renderings. -/
def pyStr : JsonVal → String
  | JsonVal.null => "None"
  | JsonVal.bool true => "True"
  | JsonVal.bool false => "False"
  | JsonVal.int n => toString n
  | JsonVal.float q => toString q
  | JsonVal.str s => s
  | JsonVal.arr _ => "[...]"
  | JsonVal.obj _ => "\x7b...\x7d"

/-- Python `float(str)` grammar, restricted to finite decimals:
optional surrounding whitespace and sign, digits with an optional point
and exponent (`inf`/`nan` and digit underscores are float specials
outside the model). -/
def parsePyFloat (s : String) : Option ℚ :=
  let cs := (s.toList.dropWhile Char.isWhitespace).reverse.dropWhile Char.isWhitespace
  let cs := cs.reverse
  let (neg, cs1) :=
    match cs with
    | c :: r =>
      if c = '-' then (true, r) else if c = '+' then (false, r) else (false, cs)
    | [] => (false, cs)
  let intDigits := cs1.takeWhile Char.isDigit
  let cs2 := cs1.dropWhile Char.isDigit
  let (fracDigits, cs3) :=
    match cs2 with
    | c :: r =>
      if c = '.' then (r.takeWhile Char.isDigit, r.dropWhile Char.isDigit)
      else (([] : List Char), cs2)
    | [] => (([] : List Char), cs2)
  if intDigits.isEmpty ∧ fracDigits.isEmpty then none
  else
    let expRes : Option (ℤ × List Char) :=
      match cs3 with
      | c :: r =>
        if c = 'e' ∨ c = 'E' then parseExpPart r
        else none
      | [] => some (0, cs3)
    match expRes with
    | none => none
    | some (e, rest) =>
      if rest.isEmpty then
        let base : ℚ := (digitsToNat intDigits : ℚ) +
          (digitsToNat fracDigits : ℚ) / 10 ^ fracDigits.length
        some ((if neg then -base else base) * 10 ^ e)
      else none

/-- Python `int()` of an exact value truncates toward zero. -/
def pyTrunc (q : ℚ) : ℤ :=
  if 0 ≤ q then ⌊q⌋ else -⌊-q⌋

/-- The sentinel strings the source uses for absent values
(`convert_to_parquet.py` lines 102-107, spec §4.1). -/
def sporcSentinels : List String :=
  ["NO_HOST_PREDICTED", "NO_GUEST_PREDICTED", "NO_NEITHER_IDENTIFIED",
   "SPEAKER_DATA_UNAVAILABLE"]

/-- `convert_to_parquet.py` `safe_str` (lines 71-74): `None` maps to the
default; a falsy value maps to the default; otherwise `str(val).strip()`. -/
def safe_str (val : JsonVal) (default : String) : String :=
  match val with
  | JsonVal.null => default
  | v => if pyTruthy v then pyStrip (pyStr v) else default

/-- `convert_to_parquet.py` `safe_float` (lines 77-83): `float(val)`
with `ValueError`/`TypeError` mapped to the default. -/
def safe_float (val : JsonVal) (default : ℚ) : ℚ :=
  match val with
  | JsonVal.null => default
  | JsonVal.float q => q
  | JsonVal.int n => (n : ℚ)
  | JsonVal.bool v => if v then 1 else 0
  | JsonVal.str s => (parsePyFloat s).getD default
  | JsonVal.arr _ => default
  | JsonVal.obj _ => default

/-- `convert_to_parquet.py` `safe_int` (lines 86-92): `int(float(val))`
with `ValueError`/`TypeError` mapped to the default (the float
round-trip is exact in this rational model). -/
def safe_int (val : JsonVal) (default : ℤ) : ℤ :=
  match val with
  | JsonVal.null => default
  | JsonVal.float q => pyTrunc q
  | JsonVal.int n => n
  | JsonVal.bool v => if v then 1 else 0
  | JsonVal.str s => ((parsePyFloat s).map pyTrunc).getD default
  | JsonVal.arr _ => default
  | JsonVal.obj _ => default

/-- `convert_to_parquet.py` `safe_list` (lines 95-115): a list is
returned unchanged; a sentinel string becomes `[]`; a bracketed string
is JSON-parsed (a JSON document opening with a bracket is an array);
other strings become a singleton unless blank; a dict iterates to its
keys; other scalars become singletons. -/
def safe_list (val : JsonVal) : List JsonVal :=
  match val with
  | JsonVal.null => []
  | JsonVal.arr l => l
  | JsonVal.str s =>
    if sporcSentinels.contains s then []
    else
      let parsed : Option JsonVal :=
        if s.toList.head? = some '[' ∧ s.toList.getLast? = some ']' then parseJsonDoc s
        else none
      match parsed with
      | some (JsonVal.arr l) => l
      | some _ => []
      | none => if (pyStrip s).isEmpty then [] else [JsonVal.str s]
  | JsonVal.obj fields => fields.map (fun p => JsonVal.str p.1)
  | v => [v]

/-- Modelled from the spec: the dict coercer (spec §4.1 `coerce_dict`)
is implemented by `SPORCDataset._safe_dict`, whose module is not in the
source tree (only `tests/test_dataset_unit.py` exercises it).  Spec: map
to itself; sentinel to empty map; JSON-object string parsed; otherwise
empty map; `None` to the default (per the unit tests). -/
def safe_dict (val : JsonVal) (default : List (String × JsonVal)) :
    List (String × JsonVal) :=
  match val with
  | JsonVal.null => default
  | JsonVal.obj fields => fields
  | JsonVal.str s =>
    if sporcSentinels.contains s then []
    else
      match parseJsonDoc s with
      | some (JsonVal.obj fields) => fields
      | _ => []
  | _ => []

/-- Modelled from the spec: the bool coercer (spec §4.1 `coerce_bool`)
is implemented by `SPORCDataset._safe_boolean`, whose module is not in
the source tree.  Spec: a native bool; `"true"`/`"false"`
case-insensitive; the numbers 1/0; otherwise the default. -/
def safe_bool (val : JsonVal) (default : Bool) : Bool :=
  match val with
  | JsonVal.bool v => v
  | JsonVal.str s =>
    if lowerStr s = "true" then true
    else if lowerStr s = "false" then false
    else default
  | JsonVal.int n => if n = 1 then true else if n = 0 then false else default
  | JsonVal.float q => if q = 1 then true else if q = 0 then false else default
  | _ => default

/-! ## MD5 and the ingest id scheme

`scripts/convert_to_parquet.py` lines 53-60 derive the synthetic ids as
`hashlib.md5(url.encode("utf-8")).hexdigest()[:k]`.  The MD5 algorithm
(RFC 1321) is implemented below over byte lists, with 32-bit words as
naturals reduced modulo `2 ^ 32`.
-/

/-- UTF-8 encoding of one character (`str.encode("utf-8")`). -/
def utf8Char (c : Char) : List ℕ :=
  let n := c.toNat
  if n < 128 then [n]
  else if n < 2048 then
    [192 ||| (n >>> 6), 128 ||| (n &&& 63)]
  else if n < 65536 then
    [224 ||| (n >>> 12), 128 ||| ((n >>> 6) &&& 63), 128 ||| (n &&& 63)]
  else
    [240 ||| (n >>> 18), 128 ||| ((n >>> 12) &&& 63),
     128 ||| ((n >>> 6) &&& 63), 128 ||| (n &&& 63)]

/-- UTF-8 bytes of a string. -/
def utf8Bytes (s : String) : List ℕ :=
  s.toList.flatMap utf8Char

/-- Reduction to a 32-bit word. -/
def w32 (n : ℕ) : ℕ := n % 2 ^ 32

/-- 32-bit left rotation. -/
def rotl32 (x s : ℕ) : ℕ := w32 ((x <<< s) ||| (x >>> (32 - s)))

/-- 32-bit bitwise complement. -/
def not32 (x : ℕ) : ℕ := 4294967295 ^^^ x

/-- The MD5 sine table `K` (RFC 1321). -/
def md5K : Array ℕ := #[
  0xd76aa478, 0xe8c7b756, 0x242070db, 0xc1bdceee,
  0xf57c0faf, 0x4787c62a, 0xa8304613, 0xfd469501,
  0x698098d8, 0x8b44f7af, 0xffff5bb1, 0x895cd7be,
  0x6b901122, 0xfd987193, 0xa679438e, 0x49b40821,
  0xf61e2562, 0xc040b340, 0x265e5a51, 0xe9b6c7aa,
  0xd62f105d, 0x02441453, 0xd8a1e681, 0xe7d3fbc8,
  0x21e1cde6, 0xc33707d6, 0xf4d50d87, 0x455a14ed,
  0xa9e3e905, 0xfcefa3f8, 0x676f02d9, 0x8d2a4c8a,
  0xfffa3942, 0x8771f681, 0x6d9d6122, 0xfde5380c,
  0xa4beea44, 0x4bdecfa9, 0xf6bb4b60, 0xbebfbc70,
  0x289b7ec6, 0xeaa127fa, 0xd4ef3085, 0x04881d05,
  0xd9d4d039, 0xe6db99e5, 0x1fa27cf8, 0xc4ac5665,
  0xf4292244, 0x432aff97, 0xab9423a7, 0xfc93a039,
  0x655b59c3, 0x8f0ccc92, 0xffeff47d, 0x85845dd1,
  0x6fa87e4f, 0xfe2ce6e0, 0xa3014314, 0x4e0811a1,
  0xf7537e82, 0xbd3af235, 0x2ad7d2bb, 0xeb86d391]

/-- The MD5 per-operation rotation amounts (RFC 1321). -/
def md5S : Array ℕ := #[
  7, 12, 17, 22, 7, 12, 17, 22, 7, 12, 17, 22, 7, 12, 17, 22,
  5, 9, 14, 20, 5, 9, 14, 20, 5, 9, 14, 20, 5, 9, 14, 20,
  4, 11, 16, 23, 4, 11, 16, 23, 4, 11, 16, 23, 4, 11, 16, 23,
  6, 10, 15, 21, 6, 10, 15, 21, 6, 10, 15, 21, 6, 10, 15, 21]

/-- `k` little-endian bytes of `n`. -/
def leBytes (k : ℕ) (n : ℕ) : List ℕ :=
  (List.range k).map (fun i => (n >>> (8 * i)) % 256)

/-- MD5 padding: a 1-bit, zeros to 56 mod 64 bytes, then the bit length
modulo `2 ^ 64`, little-endian. -/
def md5Pad (msg : List ℕ) : List ℕ :=
  let z := (56 + 64 - (msg.length + 1) % 64) % 64
  msg ++ [128] ++ List.replicate z 0 ++ leBytes 8 ((8 * msg.length) % 2 ^ 64)

/-- Word `j` of a 64-byte block, little-endian. -/
def md5Word (block : List ℕ) (j : ℕ) : ℕ :=
  block.getD (4 * j) 0 + 256 * block.getD (4 * j + 1) 0 +
    65536 * block.getD (4 * j + 2) 0 + 16777216 * block.getD (4 * j + 3) 0

/-- One of the 64 MD5 operations on the state `(a, b, c, d)`. -/
def md5Round (block : List ℕ) (st : ℕ × ℕ × ℕ × ℕ) (i : ℕ) : ℕ × ℕ × ℕ × ℕ :=
  let (a, b, c, d) := st
  let f :=
    if i < 16 then (b &&& c) ||| (not32 b &&& d)
    else if i < 32 then (d &&& b) ||| (not32 d &&& c)
    else if i < 48 then b ^^^ c ^^^ d
    else c ^^^ (b ||| not32 d)
  let g :=
    if i < 16 then i
    else if i < 32 then (5 * i + 1) % 16
    else if i < 48 then (3 * i + 5) % 16
    else (7 * i) % 16
  let x := w32 (f + a + md5K.getD i 0 + md5Word block g)
  (d, w32 (b + rotl32 x (md5S.getD i 0)), b, c)

/-- Process one 64-byte block. -/
def md5Block (st : ℕ × ℕ × ℕ × ℕ) (block : List ℕ) : ℕ × ℕ × ℕ × ℕ :=
  let (a0, b0, c0, d0) := st
  let (a, b, c, d) := (List.range 64).foldl (md5Round block) st
  (w32 (a0 + a), w32 (b0 + b), w32 (c0 + c), w32 (d0 + d))

/-- MD5 digest of a byte list (16 bytes). -/
def md5Digest (msg : List ℕ) : List ℕ :=
  let padded := md5Pad msg
  let blocks := (List.range (padded.length / 64)).map
    (fun i => (padded.drop (64 * i)).take 64)
  let st := blocks.foldl md5Block (0x67452301, 0xefcdab89, 0x98badcfe, 0x10325476)
  leBytes 4 st.1 ++ leBytes 4 st.2.1 ++ leBytes 4 st.2.2.1 ++ leBytes 4 st.2.2.2

/-- Lowercase hexadecimal digit. -/
def hexDigitChar (n : ℕ) : Char :=
  "0123456789abcdef".toList.getD n '?'

/-- Lowercase hexadecimal rendering of a byte list. -/
def bytesToHex (bs : List ℕ) : String :=
  String.mk (bs.flatMap (fun b => [hexDigitChar (b / 16), hexDigitChar (b % 16)]))

/-- `hashlib.md5(msg).hexdigest()`. -/
def md5HexDigest (msg : List ℕ) : String :=
  bytesToHex (md5Digest msg)

/-- `convert_to_parquet.py` `podcast_id_from_rss` (lines 53-55). -/
def podcast_id_from_rss (rss_url : String) : String :=
  (md5HexDigest (utf8Bytes rss_url)).take 12

/-- `convert_to_parquet.py` `episode_id_from_mp3` (lines 58-60). -/
def episode_id_from_mp3 (mp3_url : String) : String :=
  (md5HexDigest (utf8Bytes mp3_url)).take 16

/-! ## Phase-1 ingest rows

`convert_to_parquet.py` `phase1_episodes` (lines 134-364).  For the id
scheme only the url handling matters: each streamed record is a parsed
JSON object; `mp3url`/`rssUrl` are coerced with `safe_str`; records with
an empty coerced url are skipped; records are deduplicated by `mp3url`
(first wins); the surviving record receives
`podcast_id_from_rss(rss_url)` and `episode_id_from_mp3(mp3url)` on
every row written for it.  The per-podcast episode rows (lines 260-310)
carry both urls and both ids and are modelled here.
-/

/-- `rec.get(key)`: the last binding of `key`, or `None`. -/
def jsonGet (fields : List (String × JsonVal)) (key : String) : JsonVal :=
  match (fields.filter (fun p => p.1 == key)).getLast? with
  | some p => p.2
  | none => JsonVal.null

/-- The id-bearing fields of a per-podcast episode row. -/
structure PodcastEpisodeRow where
  episode_id : String
  podcast_id : String
  mp3_url : String
  rss_url : String
deriving Repr, DecidableEq, Inhabited

/-- The record loop of `phase1_episodes` (lines 164-310), restricted to
the url/id columns; `seen` carries the mp3 urls already ingested. -/
def phase1Rows : List (List (String × JsonVal)) → List String → List PodcastEpisodeRow
  | [], _ => []
  | rec :: rest, seen =>
    let mp3url := safe_str (jsonGet rec "mp3url") ""
    let rss_url := safe_str (jsonGet rec "rssUrl") ""
    if mp3url.isEmpty ∨ rss_url.isEmpty then phase1Rows rest seen
    else if seen.contains mp3url then phase1Rows rest seen
    else
      { episode_id := episode_id_from_mp3 mp3url
        podcast_id := podcast_id_from_rss rss_url
        mp3_url := mp3url
        rss_url := rss_url } :: phase1Rows rest (mp3url :: seen)

/-! ## Backend id lookups

`sporc/parquet_backend.py`: `_build_indexes` (lines 211-247) builds
`pid_to_idx` and `eid_to_idx` as Python dict comprehensions over the
catalog id columns, so a later duplicate key overwrites an earlier one;
`get_podcast_by_id` (lines 304-309) raises `NotFoundError` for an
unknown id while `get_episode_by_id` (lines 342-347) returns `None`.
-/

/-- A podcast catalog row (the fields used by the lookups). -/
structure PodcastCatRow where
  podcast_id : String
  pod_title : String
deriving Repr, DecidableEq, Inhabited

/-- An episode catalog row (the fields used by the lookups). -/
structure EpisodeCatRow where
  episode_id : String
  podcast_id : String
  ep_title : String
  mp3_url : String
deriving Repr, DecidableEq, Inhabited

/-- The index a dict comprehension over an enumerated key column
associates with `k`: the position of the last occurrence of `k` (later
bindings overwrite earlier ones), with `i` the index of the head of the
remaining column. -/
def lastIndexOf (k : String) : List String → ℕ → Option ℕ
  | [], _ => none
  | x :: xs, i =>
    match lastIndexOf k xs (i + 1) with
    | some j => some j
    | none => if x = k then some i else none

/-- The in-memory catalogs of a constructed backend. -/
structure Backend where
  podcast_catalog : List PodcastCatRow
  episode_catalog : List EpisodeCatRow
deriving Repr, Inhabited

/-- `self._eid_to_idx.get(episode_id)`. -/
def eid_to_idx (b : Backend) (episode_id : String) : Option ℕ :=
  lastIndexOf episode_id (b.episode_catalog.map (fun r => r.episode_id)) 0

/-- `self._pid_to_idx.get(podcast_id)`. -/
def pid_to_idx (b : Backend) (podcast_id : String) : Option ℕ :=
  lastIndexOf podcast_id (b.podcast_catalog.map (fun r => r.podcast_id)) 0

/-- `ParquetBackend.get_episode_by_id` (lines 342-347): `None` for an
unknown id, otherwise the catalog row at the indexed position
(`_episode_row_to_dict`). -/
def get_episode_by_id (b : Backend) (episode_id : String) : Option EpisodeCatRow :=
  match eid_to_idx b episode_id with
  | none => none
  | some idx => some (b.episode_catalog.getD idx default)

/-- `ParquetBackend.get_podcast_by_id` (lines 304-309): `NotFoundError`
(here `Except.error`; the quotation marks of the Python message are
omitted) for an unknown id, otherwise the catalog row. -/
def get_podcast_by_id (b : Backend) (podcast_id : String) : Except String PodcastCatRow :=
  match pid_to_idx b podcast_id with
  | none => Except.error ("Podcast id " ++ podcast_id ++ " not found")
  | some idx => Except.ok (b.podcast_catalog.getD idx default)

/-! ## Concrete instances

Concrete inputs used to instantiate the universally quantified
statements and to exhibit divergences.
-/

/-- Two partition rows of one episode, spoken by the same single
speaker, with distinct `turn_count` values. -/
def demoMetricRows : List MetricTurnRow :=
  [{ episode_id := "ep1", speaker := ["SPEAKER_00"], turn_text := "hello there"
     start_time := 0, end_time := 1, duration := 1, turn_count := 0
     inferred_speaker_role := "host" },
   { episode_id := "ep1", speaker := ["SPEAKER_00"], turn_text := "more words"
     start_time := 1, end_time := 2, duration := 1, turn_count := 1
     inferred_speaker_role := "host" }]

/-- A raw turn row whose end time (1000 s) lies far beyond a 60-second
episode. -/
def overlongRow : RawTurnRow :=
  { speaker := ["SPEAKER_00"], turn_text := "way past the episode end"
    start_time := 10, end_time := 1000, duration := 990, turn_count := 0
    inferred_speaker_role := "host", inferred_speaker_name := "Bob", mp3_url := "m" }

/-- A well-formed raw turn row. -/
def goodRow : RawTurnRow :=
  { speaker := ["SPEAKER_00"], turn_text := "hi", start_time := 0, end_time := 1
    duration := 1, turn_count := 0, inferred_speaker_role := "host"
    inferred_speaker_name := "Bob", mp3_url := "m" }

/-- The turn the loader builds from `goodRow`. -/
def goodRowTurn : Turn :=
  { speaker := ["SPEAKER_00"], text := "hi", start_time := 0, end_time := 1
    duration := 1, turn_count := 0, inferred_speaker_role := some "host"
    inferred_speaker_name := some "Bob", mp3_url := some "m" }

/-- The scenario-S6 turn: text `"aaaa bbbb"` (9 characters), spanning
10 s to 20 s. -/
def s6Turn : RawTurnRow :=
  { speaker := ["SPEAKER_00"], turn_text := "aaaa bbbb", start_time := 10
    end_time := 20, duration := 10, turn_count := 0
    inferred_speaker_role := "host", inferred_speaker_name := "", mp3_url := "u" }

/-- A one-record episode stream (scenario S1 of the spec). -/
def demoIngestRecs : List (List (String × JsonVal)) :=
  [[("mp3url", JsonVal.str "http://x/1.mp3"),
    ("rssUrl", JsonVal.str "http://example.com/rss")]]

/-- The row phase 1 produces for `demoIngestRecs`. -/
def demoIngestRow : PodcastEpisodeRow :=
  { episode_id := "22c4d5bc0d0ef929", podcast_id := "1ade8204c109"
    mp3_url := "http://x/1.mp3", rss_url := "http://example.com/rss" }

/-- A backend with one podcast and two episodes. -/
def demoBackend : Backend :=
  { podcast_catalog := [{ podcast_id := "p1", pod_title := "T" }]
    episode_catalog :=
      [{ episode_id := "e1", podcast_id := "p1", ep_title := "A", mp3_url := "m1" },
       { episode_id := "e2", podcast_id := "p1", ep_title := "B", mp3_url := "m2" }] }

/-! # Theorems -/

/-! ## Helper lemmas -/

/-- Round trip between `String.mk` and `String.toList`. -/
theorem toList_mk (l : List Char) : (String.mk l).toList = l := rfl

/-- `pyStrip` through Mathlib `rdropWhile`. -/
theorem pyStrip_eq (s : String) :
    pyStrip s =
      String.mk (List.rdropWhile Char.isWhitespace
        (List.dropWhile Char.isWhitespace s.toList)) := rfl

/-- Left-then-right trimming is idempotent on lists. -/
theorem trim_trim (p : Char → Bool) (l : List Char) :
    List.rdropWhile p (List.dropWhile p (List.rdropWhile p (List.dropWhile p l))) =
      List.rdropWhile p (List.dropWhile p l) := by
  have hd : List.dropWhile p (List.rdropWhile p (List.dropWhile p l)) =
      List.rdropWhile p (List.dropWhile p l) := by
    cases hmm : List.rdropWhile p (List.dropWhile p l) with
    | nil => simp
    | cons a m' =>
      have hpre : (a :: m') <+: List.dropWhile p l := by
        rw [← hmm]; exact List.rdropWhile_prefix _ _
      obtain ⟨t, ht⟩ := hpre
      have hne : List.dropWhile p l ≠ [] := by
        rw [← ht]; simp
      have h4 : (List.dropWhile p l).head? = some a := by rw [← ht]; rfl
      rw [List.head?_eq_head hne, Option.some.injEq] at h4
      have hhead : p a = false := by
        have h2 := List.head_dropWhile_not p l hne
        rwa [h4] at h2
      simp [List.dropWhile_cons, hhead]
  rw [hd, List.rdropWhile_idempotent]

/-- Stripping is idempotent. -/
theorem pyStrip_pyStrip (s : String) : pyStrip (pyStrip s) = pyStrip s := by
  rw [pyStrip_eq s, pyStrip_eq, toList_mk, trim_trim]

/-- The executable `ratFloor` is the mathematical floor. -/
theorem ratFloor_eq_floor (q : ℚ) : ratFloor q = ⌊q⌋ := by
  unfold ratFloor
  rw [Rat.floor_def]
  exact Int.fdiv_eq_ediv _ (by positivity)

set_option maxRecDepth 8000 in
/-- The MD5 of the empty message (RFC 1321 test vector), certifying the
embedded MD5. -/
theorem md5_vector_empty :
    md5HexDigest [] = "d41d8cd98f00b204e9800998ecf8427e" := by decide

set_option maxRecDepth 8000 in
/-- The MD5 of `"abc"` (RFC 1321 test vector). -/
theorem md5_vector_abc :
    md5HexDigest (utf8Bytes "abc") = "900150983cd24fb0d6963f7d28e17f72" := by decide

/-! ## C4: sliding window on an empty turn list -/

/-- C4: the claim (and spec §8) says an empty turn list makes
`sliding_window` emit zero windows without error.  The code instead
fails its index validation first: with zero turns the default
`start_index = 0` satisfies `start_index >= len(self._turns)` and the
generator raises `ValueError("Start index 0 is out of range")` — even
though the later `if total_turns <= 0: return` branch (unreachable
because the validation precedes it) was written to yield zero windows.
This theorem evaluates the embedded generator at the failing input. -/
theorem sliding_window_empty_list_raises :
    sliding_window ([] : List Turn) 3 1 none none =
      Except.error "Start index 0 is out of range" := rfl

/-! ## C5: the unique_speaker_count aggregate -/

/-- C5: the phase-2 builder accumulates `speakers_seen.add(tc)` — the
`turn_count` value, not the speaker — so the `unique_speaker_count` it
writes is the number of distinct `turn_count` values.  On an episode
with two turns by one and the same speaker (distinct turn counts) it
writes 2 while the number of distinct speakers is 1. -/
theorem unique_speaker_count_divergence :
    uniqueSpeakerCountComputed demoMetricRows = 2
    ∧ distinctSpeakerCount demoMetricRows = 1
    ∧ (2 : ℕ) ≠ 1 := by
  refine ⟨by decide, by decide, by decide⟩

/-! ## C1: the concordance word index -/

/-- C1 counterexample: the claim predicts, for the turn
`"the quick brown fox jumps over the lazy dog"` and
`concordance("fox", context_words=2)`, the record
`keyword="fox"`, `left_context="quick brown"`, `right_context="jumps
over"`, with the keyword word index equal to the number of words in the
prefix before the match.  The code computes that number minus one
(`len(text[:char_pos].split()) - 1`), so the record it actually returns
is `keyword="brown"`, `left_context="the quick"`,
`right_context="fox jumps"`. -/
theorem concordance_kwic_counterexample :
    kwicOfTurnText "fox" 2 "the quick brown fox jumps over the lazy dog" =
      some { left_context := "the quick", keyword := "brown", right_context := "fox jumps" }
    ∧ kwicOfTurnText "fox" 2 "the quick brown fox jumps over the lazy dog" ≠
      some { left_context := "quick brown", keyword := "fox", right_context := "jumps over" } := by
  refine ⟨by decide, by decide⟩

/-- C1 (amended): the keyword starting word index equals the number of
whitespace-separated words in the prefix before the match offset
*minus one*, clamped to at least 0.  Consequently the S5 turn yields
`keyword="brown"` with contexts `"the quick"` / `"fox jumps"`; a match
at character offset 0 is clamped to word index 0 (keyword `"Hello"`,
empty left context); and in general the record is the slice of the word
list at index `max(0, words-in-prefix - 1)`. -/
theorem concordance_kwic_amended :
    kwicOfTurnText "fox" 2 "the quick brown fox jumps over the lazy dog" =
      some { left_context := "the quick", keyword := "brown", right_context := "fox jumps" }
    ∧ kwicOfTurnText "Hello" 2 "Hello world how are you" =
      some { left_context := "", keyword := "Hello", right_context := "world how" }
    ∧ (∀ (word : String) (context_words : ℕ) (text : String),
        kwicOfTurnText word context_words text =
          (findSubstr (lowerStr word).toList (lowerStr text).toList).map
            (fun char_pos => kwicEntryAt word context_words text
              (((pySplit (text.toList.take char_pos)).length : ℤ) - 1).toNat)) := by
  refine ⟨by decide, by decide, ?_⟩
  intro word context_words text
  unfold kwicOfTurnText
  cases h : findSubstr (lowerStr word).toList (lowerStr text).toList with
  | none => rfl
  | some char_pos =>
    simp only [Option.map_some']
    have h2 : (pySplit (text.toList.take char_pos)).length - 1 =
        (((pySplit (text.toList.take char_pos)).length : ℤ) - 1).toNat := by omega
    rw [h2]

/-! ## C2: the number of sliding windows -/

/-- With valid arguments and default indices, `sliding_window` succeeds
and returns the core generator output for the whole turn list. -/
theorem sliding_window_default_ok (turns : List Turn) (w v : ℕ)
    (hn : 1 ≤ turns.length) (hwv : v < w) :
    sliding_window turns (w : ℤ) (v : ℤ) none none =
      Except.ok (slidingWindowCore turns w v 0 turns.length) := by
  unfold sliding_window
  simp only [Option.getD_none]
  split_ifs with h1 h2 h3 h4 h5
  · exfalso; omega
  · exfalso; omega
  · exfalso; omega
  · exfalso; omega
  · exfalso; omega
  · simp [Int.toNat_natCast]

/-- The number of windows the core generator emits. -/
theorem slidingWindowCore_length (turns : List Turn) (w v s e : ℕ)
    (hs : s < e) :
    (slidingWindowCore turns w v s e).length =
      if e - s ≤ w then 1 else (e - s - w) / (w - v) + 1 := by
  unfold slidingWindowCore
  rw [if_neg (by omega)]
  simp

/-- C2 counterexample: on 10 turns with `window_size=3`, `overlap=0`,
the generator emits 3 windows (integer floor division, as the
repository test suite asserts for this very configuration), while the
claimed formula `ceil((n - w) / (w - v)) + 1` gives 4. -/
theorem sliding_window_count_counterexample :
    Except.map List.length (sliding_window (demoTurns 10) 3 0 none none) = Except.ok 3
    ∧ ⌈((10 : ℚ) - 3) / ((3 : ℚ) - 0)⌉ + 1 = (4 : ℤ) := by
  constructor
  · rfl
  · have h : ⌈((10 : ℚ) - 3) / ((3 : ℚ) - 0)⌉ = 3 := by
      rw [Int.ceil_eq_iff]
      constructor <;> norm_num
    rw [h]
    norm_num

/-- C2 (amended): with `n ≥ 1` turns and `w > v ≥ 0`,
`Episode.sliding_window` (default indices) yields exactly
`floor((n - w) / (w - v)) + 1` windows when `n > w`, and exactly one
window when `n ≤ w`.  (The spec wrote `ceil` where the code computes
Python floor division `//`.) -/
theorem sliding_window_count_amended (turns : List Turn) (w v : ℕ)
    (hn : 1 ≤ turns.length) (hwv : v < w) :
    Except.map List.length (sliding_window turns (w : ℤ) (v : ℤ) none none) =
      Except.ok (if turns.length ≤ w then 1
        else (⌊((turns.length - w : ℕ) : ℚ) / ((w - v : ℕ) : ℚ)⌋ + 1).toNat) := by
  rw [sliding_window_default_ok turns w v hn hwv]
  simp only [Except.map]
  rw [slidingWindowCore_length turns w v 0 turns.length (by omega)]
  congr 1
  rw [Nat.sub_zero]
  split_ifs with h
  · rfl
  · rw [Rat.floor_natCast_div_natCast]
    have h2 : ((turns.length - w : ℕ) : ℤ) / ((w - v : ℕ) : ℤ) =
        (((turns.length - w) / (w - v) : ℕ) : ℤ) := (Int.ofNat_ediv _ _).symm
    rw [h2]
    clear h2
    generalize (turns.length - w) / (w - v) = q
    omega

/-- C2 witness: 10 turns, `window_size=3`, `overlap=1` — the amended
count formula gives `floor(7/2) + 1 = 4` windows. -/
theorem sliding_window_count_amended_witness :
    Except.map List.length (sliding_window (demoTurns 10) 3 1 none none) =
      Except.ok 4 := by
  have h := sliding_window_count_amended (demoTurns 10) 3 1 (by decide) (by decide)
  have hlen : (demoTurns 10).length = 10 := by decide
  rw [hlen] at h
  rw [if_neg (by norm_num)] at h
  rw [Rat.floor_natCast_div_natCast] at h
  norm_num at h
  exact h

/-! ## C3: concatenation of new_turns over all windows -/

/-- `new_turns` of a non-first window drops the overlap prefix (also
when the overlap is zero). -/
theorem new_turns_of_pos_index (ts : List Turn) (wi si ei T v : ℕ) (h : 0 < wi) :
    TurnWindow.new_turns
      { turns := ts, window_index := wi, start_index := si, end_index := ei
        total_windows := T, overlap_size := v } = ts.drop v := by
  unfold TurnWindow.new_turns TurnWindow.is_first
  rcases Nat.eq_zero_or_pos v with hv | hv
  · subst hv; simp
  · have hwi : (wi == 0) = false := by simp [Nat.pos_iff_ne_zero.mp h]
    simp [hwi, hv]

/-- `new_turns` of a window with zero recorded overlap (in particular
the first window) is the whole window. -/
theorem new_turns_of_zero_overlap (ts : List Turn) (wi si ei T : ℕ) :
    TurnWindow.new_turns
      { turns := ts, window_index := wi, start_index := si, end_index := ei
        total_windows := T, overlap_size := 0 } = ts := by
  unfold TurnWindow.new_turns TurnWindow.is_first
  simp

/-- Concatenating the `new_turns` of any window family whose first
window contributes the first `w` turns and whose later windows each
contribute the next `w - v` turns yields an initial segment of the turn
list. -/
theorem flatten_new_turns_aux (turns : List Turn) (w v : ℕ) (hwv : v < w)
    (f : ℕ → TurnWindow)
    (h0 : TurnWindow.new_turns (f 0) = turns.take w)
    (hpos : ∀ wi, 0 < wi → wi * (w - v) + w ≤ turns.length →
      TurnWindow.new_turns (f wi) = (turns.drop (wi * (w - v) + v)).take (w - v)) :
    ∀ t, t * (w - v) + w ≤ turns.length →
      (((List.range (t + 1)).map (fun wi => TurnWindow.new_turns (f wi))).flatten) =
        turns.take (w + t * (w - v)) := by
  intro t
  induction t with
  | zero =>
    intro _
    have h1 : List.range 1 = [0] := rfl
    rw [h1]
    simp only [List.map_cons, List.map_nil, List.flatten_cons, List.flatten_nil,
      List.append_nil, Nat.zero_mul, Nat.add_zero]
    exact h0
  | succ t ih =>
    intro hbound
    have hmul : (t + 1) * (w - v) = t * (w - v) + (w - v) := Nat.succ_mul _ _
    have hb1 : t * (w - v) + w ≤ turns.length := by
      rw [hmul] at hbound; omega
    rw [List.range_succ, List.map_append, List.flatten_append, ih hb1]
    simp only [List.map_cons, List.map_nil, List.flatten_cons, List.flatten_nil,
      List.append_nil]
    rw [hpos (t + 1) (Nat.succ_pos t) hbound]
    have h1 : w + t * (w - v) = (t + 1) * (w - v) + v := by rw [hmul]; omega
    have h2 : w + (t + 1) * (w - v) = ((t + 1) * (w - v) + v) + (w - v) := by
      rw [hmul]; omega
    rw [h1, h2, List.take_add turns ((t + 1) * (w - v) + v) (w - v)]

/-- The concatenation of `new_turns` over the windows of the core
generator (default indices) is the prefix of length
`w + floor((n - w) / (w - v)) * (w - v)` of the turn list. -/
theorem core_new_turns_flatten (turns : List Turn) (w v : ℕ) (hwv : v < w)
    (hn : 1 ≤ turns.length) :
    (((slidingWindowCore turns w v 0 turns.length).map TurnWindow.new_turns).flatten) =
      turns.take (w + (turns.length - w) / (w - v) * (w - v)) := by
  simp only [slidingWindowCore, Nat.sub_zero, Nat.zero_add]
  rw [if_neg (by omega : ¬ (turns.length = 0))]
  by_cases hle : turns.length ≤ w
  · rw [if_pos hle]
    have h1 : List.range 1 = [0] := rfl
    rw [h1]
    simp only [List.map_cons, List.map_nil, List.flatten_cons, List.flatten_nil,
      List.append_nil, Nat.zero_mul, Nat.add_zero, Nat.zero_add, List.drop_zero,
      Nat.sub_zero, gt_iff_lt, lt_irrefl, if_false]
    have hq : turns.length - w = 0 := by omega
    rw [hq]
    simp only [Nat.zero_div, Nat.zero_mul, Nat.add_zero]
    rw [new_turns_of_zero_overlap, Nat.min_eq_right hle, List.take_length]
    exact (List.take_of_length_le hle).symm
  · rw [if_neg hle]
    have hwle : w ≤ turns.length := by omega
    rw [List.map_map]
    refine flatten_new_turns_aux turns w v hwv _ ?_ ?_ _ ?_
    · show TurnWindow.new_turns
        { turns := (turns.drop (0 * (w - v))).take
            (min (0 * (w - v) + w) turns.length - 0 * (w - v))
          window_index := 0
          start_index := 0 * (w - v)
          end_index := min (0 * (w - v) + w) turns.length
          total_windows := (turns.length - w) / (w - v) + 1
          overlap_size := if 0 > 0 then v else 0 } = turns.take w
      simp only [Nat.zero_mul, Nat.zero_add, Nat.sub_zero, List.drop_zero, gt_iff_lt,
        lt_irrefl, if_false]
      rw [Nat.min_eq_left hwle, new_turns_of_zero_overlap]
    · intro wi hwi hb
      show TurnWindow.new_turns
        { turns := (turns.drop (wi * (w - v))).take
            (min (wi * (w - v) + w) turns.length - wi * (w - v))
          window_index := wi
          start_index := wi * (w - v)
          end_index := min (wi * (w - v) + w) turns.length
          total_windows := (turns.length - w) / (w - v) + 1
          overlap_size := if wi > 0 then v else 0 } =
        (turns.drop (wi * (w - v) + v)).take (w - v)
      rw [Nat.min_eq_left hb, if_pos hwi, Nat.add_sub_cancel_left,
        new_turns_of_pos_index _ _ _ _ _ _ hwi, List.drop_take, List.drop_drop]
    · have := Nat.div_mul_le_self (turns.length - w) (w - v)
      omega

/-- C3 counterexample: on 10 turns with `window_size=3`, `overlap=0`
the windows cover only the first 9 turns, so the concatenation of
`window.new_turns` equals the 9-turn prefix and misses the last turn:
it is not the full turn list. -/
theorem sliding_window_new_turns_counterexample :
    Except.map (fun ws => (ws.map TurnWindow.new_turns).flatten)
        (sliding_window (demoTurns 10) 3 0 none none) = Except.ok (demoTurns 9)
    ∧ demoTurns 9 ≠ demoTurns 10 := by
  refine ⟨rfl, by decide⟩

/-- C3 (amended): for a non-empty turn list and `w > v ≥ 0` (default
indices), the concatenation of `window.new_turns` over all yielded
windows equals the prefix of the turn list of length
`w + floor((n - w) / (w - v)) * (w - v)` — each turn of that prefix
appearing exactly once, in order — and equals the full turn list
exactly under the divisibility `(w - v) | (n - w)` (in particular
whenever `n ≤ w`). -/
theorem sliding_window_new_turns_amended (turns : List Turn) (w v : ℕ)
    (hn : 1 ≤ turns.length) (hwv : v < w) :
    Except.map (fun ws => (ws.map TurnWindow.new_turns).flatten)
        (sliding_window turns (w : ℤ) (v : ℤ) none none) =
      Except.ok (turns.take (w + (turns.length - w) / (w - v) * (w - v)))
    ∧ ((w - v) ∣ (turns.length - w) →
        Except.map (fun ws => (ws.map TurnWindow.new_turns).flatten)
          (sliding_window turns (w : ℤ) (v : ℤ) none none) = Except.ok turns) := by
  have hmain : Except.map (fun ws => (ws.map TurnWindow.new_turns).flatten)
      (sliding_window turns (w : ℤ) (v : ℤ) none none) =
      Except.ok (turns.take (w + (turns.length - w) / (w - v) * (w - v))) := by
    rw [sliding_window_default_ok turns w v hn hwv]
    simp only [Except.map]
    rw [core_new_turns_flatten turns w v hwv hn]
  refine ⟨hmain, fun hdvd => ?_⟩
  rw [hmain]
  congr 1
  rcases le_or_lt turns.length w with hle | hlt
  · have hq : turns.length - w = 0 := by omega
    rw [hq]
    simp only [Nat.zero_div, Nat.zero_mul, Nat.add_zero]
    exact List.take_of_length_le hle
  · rw [Nat.div_mul_cancel hdvd]
    have hsum : w + (turns.length - w) = turns.length := by omega
    rw [hsum, List.take_length]

/-- C3 witness: 9 turns, `window_size=3`, `overlap=0` — the step 3
divides `9 - 3`, so the concatenated `new_turns` recover the full turn
list. -/
theorem sliding_window_new_turns_amended_witness :
    Except.map (fun ws => (ws.map TurnWindow.new_turns).flatten)
        (sliding_window (demoTurns 9) 3 0 none none) = Except.ok (demoTurns 9) :=
  (sliding_window_new_turns_amended (demoTurns 9) 3 0 (by decide) (by decide)).2
    (by decide)

/-! ## C6: loaded turn time bounds -/

/-- C6 counterexample: the loader validates only `0 ≤ start_time`,
`start_time < end_time`, speaker and text — it never compares
`end_time` against the episode duration.  A turn ending at 1000 s is
kept in an episode whose `duration_seconds` is 60. -/
theorem turn_loader_upper_bound_counterexample :
    (load_turns_into_episode [overlongRow]).map Turn.end_time = [1000]
    ∧ ¬ ((1000 : ℚ) ≤ 60) := by
  refine ⟨by decide, by norm_num⟩

/-- C6 (amended): every turn attached by the loader satisfies
`0 ≤ start_time < end_time` (rows with a negative start are discarded by
the `Turn` validation, rows with `end_time ≤ start_time` by the loader);
no upper bound against the episode duration is enforced. -/
theorem turn_loader_time_bounds_amended (rows : List RawTurnRow) (t : Turn)
    (ht : t ∈ load_turns_into_episode rows) :
    0 ≤ t.start_time ∧ t.start_time < t.end_time := by
  unfold load_turns_into_episode at ht
  rw [List.mem_insertionSort] at ht
  rw [List.mem_filterMap] at ht
  obtain ⟨row, _, hf⟩ := ht
  by_cases h1 : row.speaker.isEmpty
  · rw [if_pos h1] at hf; simp at hf
  · rw [if_neg h1] at hf
    simp only [] at hf
    by_cases h2 : (pyStrip row.turn_text).isEmpty
    · rw [if_pos h2] at hf; simp at hf
    · rw [if_neg h2] at hf
      by_cases h3 : row.end_time ≤ row.start_time
      · rw [if_pos h3] at hf; simp at hf
      · rw [if_neg h3] at hf
        cases hmk : mkTurn row.speaker (pyStrip row.turn_text) row.start_time
            row.end_time row.duration row.turn_count
            (strOrNone row.inferred_speaker_role)
            (strOrNone row.inferred_speaker_name) (strOrNone row.mp3_url) with
        | error e => rw [hmk] at hf; simp at hf
        | ok u =>
          rw [hmk] at hf
          simp only [Option.some.injEq] at hf
          subst hf
          unfold mkTurn at hmk
          split_ifs at hmk with g1 g2 g3 g4
          all_goals
            first
              | exact Except.noConfusion hmk
              | (rw [Except.ok.injEq] at hmk
                 subst hmk
                 exact ⟨not_lt.mp g1, not_le.mp h3⟩)

/-- C6 witness: a well-formed row loads into a turn with
`0 ≤ start_time < end_time`. -/
theorem turn_loader_time_bounds_amended_witness :
    0 ≤ goodRowTurn.start_time ∧ goodRowTurn.start_time < goodRowTurn.end_time :=
  turn_loader_time_bounds_amended [goodRow] goodRowTurn (by decide)

/-! ## C8: audio-offset estimation -/

/-- When the requested occurrence index is at least the total number of
hits, the scan falls through every turn and returns `none`. -/
theorem estimateWordAudioGo_none (word_lower : List Char) (word_len : ℕ) :
    ∀ (turns : List RawTurnRow) (occ : ℕ),
      (turns.map (fun t =>
        (matchPositions word_lower (lowerStr t.turn_text).toList).length)).sum ≤ occ →
      estimateWordAudioGo word_lower word_len turns occ = none := by
  intro turns
  induction turns with
  | nil => intro occ _; rfl
  | cons t rest ih =>
    intro occ h
    rw [List.map_cons, List.sum_cons] at h
    unfold estimateWordAudioGo
    rw [if_neg (by omega)]
    exact ih _ (by omega)

/-- C8: scenario S6 — on the turn with text `"aaaa bbbb"` (9
characters) spanning 10 s to 20 s, `estimate_word_audio(..., "bbbb")`
returns `estimated_start = 15.56` (within 0.01 of `10 + (5/9)*10`),
`estimated_end = 20.0` and confidence `1`, which is positive and at
most 1 — and whenever the `occurrence` argument exceeds the total
number of case-insensitive occurrences of the word across the turns,
the result is `null`. -/
theorem estimate_word_audio_spec :
    ((estimate_word_audio [s6Turn] "bbbb" 0).map AudioEstimate.estimated_start =
        some (389 / 25)
      ∧ |(389 / 25 : ℚ) - (10 + 5 / 9 * 10)| < 1 / 100
      ∧ (estimate_word_audio [s6Turn] "bbbb" 0).map AudioEstimate.estimated_end =
        some 20
      ∧ (estimate_word_audio [s6Turn] "bbbb" 0).map AudioEstimate.confidence = some 1
      ∧ (0 : ℚ) < 1 ∧ (1 : ℚ) ≤ 1)
    ∧ (∀ (turns : List RawTurnRow) (word : String) (occ : ℕ),
        totalOccurrences turns word < occ →
        estimate_word_audio turns word occ = none) := by
  constructor
  · refine ⟨by decide, ?_, by decide, by decide, by norm_num, le_refl 1⟩
    rw [abs_sub_lt_iff]
    constructor <;> norm_num
  · intro turns word occ h
    exact estimateWordAudioGo_none (lowerStr word).toList word.length turns occ
      (le_of_lt h)

/-- C8 witness: `"bbbb"` occurs once in the S6 turn, so asking for the
sixth occurrence returns `null`. -/
theorem estimate_word_audio_spec_witness :
    estimate_word_audio [s6Turn] "bbbb" 5 = none :=
  estimate_word_audio_spec.2 [s6Turn] "bbbb" 5 (by decide)

/-! ## C7: the ingest id scheme -/

/-- Every row the phase-1 record loop emits, from any starting `seen`
set, carries the synthetic ids derived from its own urls. -/
theorem phase1Rows_id_scheme (recs : List (List (String × JsonVal))) :
    ∀ (seen : List String) (row : PodcastEpisodeRow), row ∈ phase1Rows recs seen →
      row.podcast_id = podcast_id_from_rss row.rss_url ∧
      row.episode_id = episode_id_from_mp3 row.mp3_url := by
  induction recs with
  | nil => intro seen row h; exact absurd h (List.not_mem_nil row)
  | cons rec rest ih =>
    intro seen row h
    simp only [phase1Rows] at h
    split_ifs at h with h1 h2
    · exact ih seen row h
    · exact ih seen row h
    · rcases List.mem_cons.mp h with hEq | hMem
      · subst hEq; exact ⟨by dsimp only, by dsimp only⟩
      · exact ih _ row hMem

/-- C7: every record the phase-1 ingest emits has `podcast_id` equal to
the first 12 hex characters of the MD5 of its UTF-8-encoded rss url and
`episode_id` equal to the first 16 hex characters of the MD5 of its
UTF-8-encoded mp3 url; the ids are functions of the urls alone, so
re-running ingest on the same record reproduces them. -/
theorem ingest_id_scheme (recs : List (List (String × JsonVal)))
    (row : PodcastEpisodeRow) (hmem : row ∈ phase1Rows recs []) :
    row.podcast_id = (md5HexDigest (utf8Bytes row.rss_url)).take 12 ∧
    row.episode_id = (md5HexDigest (utf8Bytes row.mp3_url)).take 16 :=
  phase1Rows_id_scheme recs [] row hmem

set_option maxRecDepth 8000 in
/-- C7 witness: the single-record demo stream yields the row with the
expected MD5-derived ids. -/
theorem ingest_id_scheme_witness :
    demoIngestRow ∈ phase1Rows demoIngestRecs [] ∧
    demoIngestRow.podcast_id = (md5HexDigest (utf8Bytes demoIngestRow.rss_url)).take 12 ∧
    demoIngestRow.episode_id = (md5HexDigest (utf8Bytes demoIngestRow.mp3_url)).take 16 :=
  ⟨by decide, ingest_id_scheme demoIngestRecs demoIngestRow (by decide)⟩

/-! ## C9: idempotence of the value coercers -/

/-- The string coercer only ever returns its (stripped-clean) default
`""` or a stripped string, so its output is a fixed point of `strip`. -/
theorem safe_str_stripped (v : JsonVal) :
    pyStrip (safe_str v "") = safe_str v "" := by
  cases v <;> simp only [safe_str] <;>
    first
      | decide
      | (split_ifs with h
         · exact pyStrip_pyStrip _
         · decide)

/-- A strip-fixed string passes through the string coercer unchanged. -/
theorem safe_str_fixed (t : String) (ht : pyStrip t = t) :
    safe_str (JsonVal.str t) "" = t := by
  simp only [safe_str, pyTruthy, pyStr]
  by_cases h : t.isEmpty
  · rw [(String.isEmpty_iff t).mp h]; decide
  · simp only [h, Bool.not_false, if_pos rfl]
    exact ht

/-- C9: each of the six value coercers is idempotent: feeding a
coercer its own output (as a JSON value of the output type) returns
that output unchanged, with the pipeline default for the string
coercer and any default for the rest. -/
theorem coercion_idempotent :
    (∀ v, safe_str (JsonVal.str (safe_str v "")) "" = safe_str v "") ∧
    (∀ v d, safe_float (JsonVal.float (safe_float v d)) d = safe_float v d) ∧
    (∀ v d, safe_int (JsonVal.int (safe_int v d)) d = safe_int v d) ∧
    (∀ v, safe_list (JsonVal.arr (safe_list v)) = safe_list v) ∧
    (∀ v d, safe_dict (JsonVal.obj (safe_dict v d)) d = safe_dict v d) ∧
    (∀ v d, safe_bool (JsonVal.bool (safe_bool v d)) d = safe_bool v d) :=
  ⟨fun v => safe_str_fixed (safe_str v "") (safe_str_stripped v),
   fun _ _ => rfl, fun _ _ => rfl, fun _ => rfl, fun _ _ => rfl, fun _ _ => rfl⟩

/-! ## C10: the id lookups -/

/-- A dict comprehension over a key column misses a key occurring
nowhere in it. -/
theorem lastIndexOf_eq_none (k : String) (keys : List String) :
    ∀ i : ℕ, (∀ x ∈ keys, x ≠ k) → lastIndexOf k keys i = none := by
  induction keys with
  | nil => intro i _; rfl
  | cons x xs ih =>
    intro i h
    have hx : lastIndexOf k xs (i + 1) = none :=
      ih (i + 1) (fun y hy => h y (List.mem_cons_of_mem x hy))
    simp only [lastIndexOf, hx, if_neg (h x (List.mem_cons_self x xs))]

/-- On a duplicate-free key column, the dict comprehension maps the key
at position `j` to `i + j`, with `i` the index of the head. -/
theorem lastIndexOf_of_nodup (k : String) (keys : List String) :
    ∀ (i j : ℕ) (hj : j < keys.length), keys.Nodup →
      keys.get ⟨j, hj⟩ = k → lastIndexOf k keys i = some (i + j) := by
  induction keys with
  | nil => intro i j hj; exact absurd hj (Nat.not_lt_zero j)
  | cons x xs ih =>
    intro i j hj hnd hget
    cases j with
    | zero =>
      have hx : x = k := hget
      have hnone : lastIndexOf k xs (i + 1) = none := by
        apply lastIndexOf_eq_none
        intro y hy hyk
        exact (List.nodup_cons.mp hnd).1 (hx ▸ hyk ▸ hy)
      simp only [lastIndexOf, hnone, if_pos hx, Nat.add_zero]
    | succ n =>
      have hn : n < xs.length := Nat.lt_of_succ_lt_succ hj
      have hrec : lastIndexOf k xs (i + 1) = some (i + 1 + n) :=
        ih (i + 1) n hn (List.nodup_cons.mp hnd).2 hget
      simp only [lastIndexOf, hrec, Option.some.injEq]
      omega

/-- C10: `get_episode_by_id` is total on ids — an id absent from the
episode catalog returns `None` without error, and (on a duplicate-free
id column) an id present at position `j` returns exactly the catalog
row at `j` — whereas `get_podcast_by_id` raises `NotFoundError` for an
id absent from the podcast catalog. -/
theorem get_episode_by_id_total_lookup (b : Backend) (eid pid : String) :
    ((∀ r ∈ b.episode_catalog, r.episode_id ≠ eid) →
       get_episode_by_id b eid = none) ∧
    (∀ (j : ℕ) (hj : j < b.episode_catalog.length),
       (b.episode_catalog.map (fun r => r.episode_id)).Nodup →
       (b.episode_catalog.get ⟨j, hj⟩).episode_id = eid →
       get_episode_by_id b eid = some (b.episode_catalog.get ⟨j, hj⟩)) ∧
    ((∀ r ∈ b.podcast_catalog, r.podcast_id ≠ pid) →
       get_podcast_by_id b pid =
         Except.error ("Podcast id " ++ pid ++ " not found")) := by
  refine ⟨?_, ?_, ?_⟩
  · intro h
    unfold get_episode_by_id eid_to_idx
    rw [lastIndexOf_eq_none eid _ 0]
    intro x hx
    rcases List.mem_map.mp hx with ⟨r, hr, hrx⟩
    exact hrx ▸ h r hr
  · intro j hj hnd hget
    unfold get_episode_by_id eid_to_idx
    have hjm : j < (b.episode_catalog.map (fun r => r.episode_id)).length := by
      rw [List.length_map]; exact hj
    have hkey : (b.episode_catalog.map (fun r => r.episode_id)).get ⟨j, hjm⟩ = eid := by
      rw [List.get_eq_getElem, List.getElem_map]
      exact hget
    rw [lastIndexOf_of_nodup eid _ 0 j hjm hnd hkey]
    show some (b.episode_catalog.getD (0 + j) default) = _
    rw [Nat.zero_add, List.getD_eq_getElem _ _ hj, List.get_eq_getElem]
  · intro h
    unfold get_podcast_by_id pid_to_idx
    rw [lastIndexOf_eq_none pid _ 0]
    intro x hx
    rcases List.mem_map.mp hx with ⟨r, hr, hrx⟩
    exact hrx ▸ h r hr

/-- C10 witness: on the demo backend, an unknown episode id returns
`None`, the id `"e2"` returns the second catalog row, and an unknown
podcast id raises. -/
theorem get_episode_by_id_total_lookup_witness :
    get_episode_by_id demoBackend "zzz" = none ∧
    get_episode_by_id demoBackend "e2" =
      some (demoBackend.episode_catalog.get ⟨1, by decide⟩) ∧
    get_podcast_by_id demoBackend "qq" =
      Except.error ("Podcast id " ++ "qq" ++ " not found") :=
  ⟨(get_episode_by_id_total_lookup demoBackend "zzz" "qq").1 (by decide),
   (get_episode_by_id_total_lookup demoBackend "e2" "qq").2.1 1 (by decide)
     (by decide) (by decide),
   (get_episode_by_id_total_lookup demoBackend "zzz" "qq").2.2 (by decide)⟩
